import Mathlib

/-!
Verification of the SFTPGo VFS layer (`internal/vfs/vfs.go`).

The Go source is shallowly embedded: pure functions become Lean functions,
methods that mutate their receiver become functions returning the updated
record, `error` results become `Option String` / `Except String` values
carrying the Go error message, and the Go standard-library path helpers
(`path.Clean`, `path.Join`, `path.IsAbs`, `strings.HasPrefix`, ...) are
re-implemented on `List Char`.  The `kms.Secret` capability lives in a
repository package that is not part of the provided sources, so it is
modelled from the specification's description of it (a tagged state
machine).  The metadata plugin host is likewise external and is modelled
as a record of oracle functions; the metadata sweep is embedded as a
fuelled loop that also records the trace of `RemoveMetadata` calls and log
events, so that claims about the sweep's effects can be stated.
-/

namespace SftpgoVfs

/-- Modelled from the spec: the `kms.Secret` capability (package
`internal/kms`, not included in the provided sources).  The spec describes
an opaque credential with an internal state machine with states
empty, plain, encrypted and invalid, a payload, and additional data that
is bound to the ciphertext when the secret is encrypted. -/
inductive Secret where
  | empty : Secret
  | plain (payload : String) (additionalData : String) : Secret
  | encrypted (payload : String) (additionalData : String) : Secret
  | invalid : Secret
deriving DecidableEq, Repr

/-- Modelled from the spec: `kms.NewEmptySecret()` returns a secret in the
empty state. -/
def NewEmptySecret : Secret := Secret.empty

/-- Modelled from the spec: `is_empty` tests for the empty state. -/
def Secret.IsEmpty : Secret → Bool
  | .empty => true
  | _ => false

/-- Modelled from the spec: `is_plain` tests for the plain state. -/
def Secret.IsPlain : Secret → Bool
  | .plain _ _ => true
  | _ => false

/-- Modelled from the spec: `is_encrypted` tests for the encrypted state. -/
def Secret.IsEncrypted : Secret → Bool
  | .encrypted _ _ => true
  | _ => false

/-- Modelled from the spec: `is_valid` holds for well-formed ciphertext. -/
def Secret.IsValid : Secret → Bool
  | .encrypted p _ => p ≠ ""
  | _ => false

/-- Modelled from the spec: `is_valid_input` holds for an acceptable
plaintext secret or for well-formed ciphertext. -/
def Secret.IsValidInput : Secret → Bool
  | .plain p _ => p ≠ ""
  | .encrypted p _ => p ≠ ""
  | _ => false

/-- Modelled from the spec: `get_payload` returns the stored payload (the
empty string for the empty and invalid states). -/
def Secret.GetPayload : Secret → String
  | .plain p _ => p
  | .encrypted p _ => p
  | _ => ""

/-- Modelled from the spec: `is_equal` is deep structural equality of
secrets. -/
def Secret.IsEqual (a b : Secret) : Bool := a == b

/-- Modelled from the spec: `set_additional_data` binds the AEAD
associated-data string to the secret. -/
def Secret.SetAdditionalData (s : Secret) (ad : String) : Secret :=
  match s with
  | .plain p _ => .plain p ad
  | .encrypted p _ => .encrypted p ad
  | s => s

/-- Modelled from the spec: `encrypt` turns a plain secret into an
encrypted one and fails on any other state. -/
def Secret.Encrypt (s : Secret) : Except String Secret :=
  match s with
  | .plain p ad => if p = "" then .error "empty payload" else .ok (.encrypted p ad)
  | _ => .error "invalid secret status"

/-! ### Go string and path helpers

`strings.HasPrefix`, `strings.HasSuffix`, `strings.TrimSpace` and the
`path` package functions used by `vfs.go`, embedded over `List Char`. -/

/-- Go `strings.HasPrefix s pre`. -/
def goHasPrefix (s pre : String) : Bool := pre.data.isPrefixOf s.data

/-- Go `strings.HasSuffix s suf`. -/
def goHasSuffix (s suf : String) : Bool := suf.data.isSuffixOf s.data

/-- Go `strings.TrimSpace`. -/
def goTrimSpace (s : String) : String :=
  ⟨((s.data.dropWhile Char.isWhitespace).reverse.dropWhile Char.isWhitespace).reverse⟩

/-- Splitting a character list at every '/' (the component view Go's
`path.Clean` iterates over).  The result is never empty. -/
def splitSlash : List Char → List (List Char)
  | [] => [[]]
  | c :: cs =>
    if c = '/' then [] :: splitSlash cs
    else
      match splitSlash cs with
      | [] => [[c]]
      | p :: ps => (c :: p) :: ps

/-- The ".." component. -/
def dotdot : List Char := ['.', '.']

/-- One step of Go `path.Clean`'s element processing, phrased on a stack of
already-emitted components (`path.Clean` keeps the output in a buffer; the
buffer's components, most recent first, are this stack).  Empty and "."
components are dropped; ".." pops the last real component, is dropped at
the root of a rooted path, and is kept when there is nothing left to pop in
a relative path; anything else is emitted. -/
def cleanPush (rooted : Bool) (stack : List (List Char)) (comp : List Char) :
    List (List Char) :=
  if comp = [] ∨ comp = ['.'] then stack
  else if comp = dotdot then
    match stack with
    | [] => if rooted then [] else [dotdot]
    | top :: rest => if top = dotdot then dotdot :: top :: rest else rest
  else comp :: stack

/-- Interleaving components with '/' (the inverse of `splitSlash` on
slash-free components). -/
def joinParts : List (List Char) → List Char
  | [] => []
  | [p] => p
  | p :: ps => p ++ '/' :: joinParts ps

/-- Go `path.Clean` on a character list. -/
def cleanChars (p : List Char) : List Char :=
  if p = [] then ['.']
  else
    let rooted : Bool := p.head? == some '/'
    let stack := (splitSlash p).foldl (cleanPush rooted) []
    let body := joinParts stack.reverse
    if rooted then (if body = [] then ['/'] else '/' :: body)
    else (if body = [] then ['.'] else body)

/-- Go `path.Clean`. -/
def goClean (s : String) : String := ⟨cleanChars s.data⟩

/-- Go `path.IsAbs`. -/
def goIsAbs (s : String) : Bool := goHasPrefix s "/"

/-- Go `path.Join` restricted to two elements: non-empty elements are
joined with '/' and the result is cleaned; if both are empty the result is
the empty string (Go returns "" without cleaning in that case). -/
def goJoin2 (a b : String) : String :=
  if a = "" then (if b = "" then "" else goClean b)
  else if b = "" then goClean a
  else goClean (a ++ "/" ++ b)

/-- `ensureAbsPath` from `vfs.go`: return the name unchanged when it is
absolute, otherwise `path.Join("/", name)`. -/
def ensureAbsPath (name : String) : String :=
  if goIsAbs name then name
  else goJoin2 "/" name

/-! ### Backend configuration records

The four configuration families of `vfs.go`.  Go `*kms.Secret` pointer
fields become `Option Secret` (`none` is Go's nil); methods that
materialize a nil secret into a fresh empty secret before using it are
embedded with `Option.getD NewEmptySecret`, and operations whose Go
original dereferences a possibly-nil secret without such a guard return
`Option Bool` (`none` marks the nil-pointer panic).  Go `int`/`int64`
fields become `Int`. -/

structure S3FsConfig where
  Bucket : String := ""
  KeyPrefix : String := ""
  Region : String := ""
  AccessKey : String := ""
  RoleARN : String := ""
  Endpoint : String := ""
  StorageClass : String := ""
  ACL : String := ""
  UploadPartSize : Int := 0
  UploadConcurrency : Int := 0
  DownloadPartSize : Int := 0
  DownloadConcurrency : Int := 0
  UploadPartMaxTime : Int := 0
  DownloadPartMaxTime : Int := 0
  ForcePathStyle : Bool := false
  AccessSecret : Option Secret := none
deriving DecidableEq

/-- `S3FsConfig.areMultipartFieldsEqual`. -/
def S3FsConfig.areMultipartFieldsEqual (c other : S3FsConfig) : Bool :=
  if c.UploadPartSize ≠ other.UploadPartSize then false
  else if c.UploadConcurrency ≠ other.UploadConcurrency then false
  else if c.DownloadConcurrency ≠ other.DownloadConcurrency then false
  else if c.DownloadPartSize ≠ other.DownloadPartSize then false
  else if c.DownloadPartMaxTime ≠ other.DownloadPartMaxTime then false
  else if c.UploadPartMaxTime ≠ other.UploadPartMaxTime then false
  else true

/-- `S3FsConfig.isSecretEqual`: both sides' nil secrets are materialized to
empty secrets before comparison. -/
def S3FsConfig.isSecretEqual (c other : S3FsConfig) : Bool :=
  (c.AccessSecret.getD NewEmptySecret).IsEqual (other.AccessSecret.getD NewEmptySecret)

/-- `S3FsConfig.isEqual`. -/
def S3FsConfig.isEqual (c other : S3FsConfig) : Bool :=
  if c.Bucket ≠ other.Bucket then false
  else if c.KeyPrefix ≠ other.KeyPrefix then false
  else if c.Region ≠ other.Region then false
  else if c.AccessKey ≠ other.AccessKey then false
  else if c.RoleARN ≠ other.RoleARN then false
  else if c.Endpoint ≠ other.Endpoint then false
  else if c.StorageClass ≠ other.StorageClass then false
  else if c.ACL ≠ other.ACL then false
  else if ¬ c.areMultipartFieldsEqual other then false
  else if c.ForcePathStyle ≠ other.ForcePathStyle then false
  else c.isSecretEqual other

/-- `S3FsConfig.checkCredentials`.  `validate` materializes a nil
`AccessSecret` before this runs; the `getD` stands for that non-nil
dereference. -/
def S3FsConfig.checkCredentials (c : S3FsConfig) : Option String :=
  let sec := c.AccessSecret.getD NewEmptySecret
  if c.AccessKey = "" ∧ ¬ sec.IsEmpty then
    some "access_key cannot be empty with access_secret not empty"
  else if sec.IsEmpty ∧ c.AccessKey ≠ "" then
    some "access_secret cannot be empty with access_key not empty"
  else if sec.IsEncrypted ∧ ¬ sec.IsValid then
    some "invalid encrypted access_secret"
  else if ¬ sec.IsEmpty ∧ ¬ sec.IsValidInput then
    some "invalid access_secret"
  else none

/-- `S3FsConfig.checkPartSizeAndConcurrency`. -/
def S3FsConfig.checkPartSizeAndConcurrency (c : S3FsConfig) : Option String :=
  if c.UploadPartSize ≠ 0 ∧ (c.UploadPartSize < 5 ∨ c.UploadPartSize > 5000) then
    some "upload_part_size cannot be != 0, lower than 5 (MB) or greater than 5000 (MB)"
  else if c.UploadConcurrency < 0 ∨ c.UploadConcurrency > 64 then
    some "invalid upload concurrency"
  else if c.DownloadPartSize ≠ 0 ∧ (c.DownloadPartSize < 5 ∨ c.DownloadPartSize > 5000) then
    some "download_part_size cannot be != 0, lower than 5 (MB) or greater than 5000 (MB)"
  else if c.DownloadConcurrency < 0 ∨ c.DownloadConcurrency > 64 then
    some "invalid download concurrency"
  else none

/-- `S3FsConfig.isSameResource`. -/
def S3FsConfig.isSameResource (c other : S3FsConfig) : Bool :=
  if c.Bucket ≠ other.Bucket then false
  else if c.Endpoint ≠ other.Endpoint then false
  else c.Region == other.Region

/-- The key-prefix normalization block that appears verbatim in the S3, GCS
and Azure `validate` methods: a non-empty prefix must not start with '/',
is passed through `path.Clean`, and gets a trailing '/' if it lacks one. -/
def normalizeKeyPfx (k : String) : Except String String :=
  if k ≠ "" then
    if goHasPrefix k "/" then .error "key_prefix cannot start with /"
    else
      let k := goClean k
      let k := if ¬ goHasSuffix k "/" then k ++ "/" else k
      .ok k
  else .ok k

/-- `S3FsConfig.validate`.  The Go method mutates its receiver; the
embedding returns the updated record together with the error (the pair's
second component, `none` on success). -/
def S3FsConfig.validate (c : S3FsConfig) : S3FsConfig × Option String :=
  let c := { c with AccessSecret := some (c.AccessSecret.getD NewEmptySecret) }
  if c.Bucket = "" then (c, some "bucket cannot be empty")
  else if c.Endpoint = "" ∧ c.Region = "" then (c, some "region cannot be empty")
  else
    match c.checkCredentials with
    | some e => (c, some e)
    | none =>
      match normalizeKeyPfx c.KeyPrefix with
      | .error e => (c, some e)
      | .ok kp =>
        let c := { c with KeyPrefix := kp }
        let c := { c with StorageClass := goTrimSpace c.StorageClass,
                          ACL := goTrimSpace c.ACL }
        (c, c.checkPartSizeAndConcurrency)

structure GCSFsConfig where
  Bucket : String := ""
  KeyPrefix : String := ""
  AutomaticCredentials : Int := 0
  StorageClass : String := ""
  ACL : String := ""
  UploadPartSize : Int := 0
  UploadPartMaxTime : Int := 0
  Credentials : Option Secret := none
deriving DecidableEq

/-- `GCSFsConfig.isEqual`. -/
def GCSFsConfig.isEqual (c other : GCSFsConfig) : Bool :=
  if c.Bucket ≠ other.Bucket then false
  else if c.KeyPrefix ≠ other.KeyPrefix then false
  else if c.AutomaticCredentials ≠ other.AutomaticCredentials then false
  else if c.StorageClass ≠ other.StorageClass then false
  else if c.ACL ≠ other.ACL then false
  else if c.UploadPartSize ≠ other.UploadPartSize then false
  else if c.UploadPartMaxTime ≠ other.UploadPartMaxTime then false
  else (c.Credentials.getD NewEmptySecret).IsEqual (other.Credentials.getD NewEmptySecret)

/-- `GCSFsConfig.isSameResource`. -/
def GCSFsConfig.isSameResource (c other : GCSFsConfig) : Bool :=
  c.Bucket == other.Bucket

/-- `GCSFsConfig.validate`:  the very first statement replaces the
credentials with a fresh empty secret when they are nil or when automatic
credentials are selected. -/
def GCSFsConfig.validate (c : GCSFsConfig) : GCSFsConfig × Option String :=
  let c :=
    if c.Credentials = none ∨ c.AutomaticCredentials = 1 then
      { c with Credentials := some NewEmptySecret }
    else c
  if c.Bucket = "" then (c, some "bucket cannot be empty")
  else
    match normalizeKeyPfx c.KeyPrefix with
    | .error e => (c, some e)
    | .ok kp =>
      let c := { c with KeyPrefix := kp }
      let cred := c.Credentials.getD NewEmptySecret
      if cred.IsEncrypted ∧ ¬ cred.IsValid then (c, some "invalid encrypted credentials")
      else if c.AutomaticCredentials = 0 ∧ ¬ cred.IsValidInput then
        (c, some "invalid credentials")
      else
        let c := { c with StorageClass := goTrimSpace c.StorageClass,
                          ACL := goTrimSpace c.ACL }
        let c := if c.UploadPartSize < 0 then { c with UploadPartSize := 0 } else c
        let c := if c.UploadPartMaxTime < 0 then { c with UploadPartMaxTime := 0 } else c
        (c, none)

/-- `GCSFsConfig.ValidateAndEncryptCredentials`: validate, then encrypt the
credentials when they are in the plain state. -/
def GCSFsConfig.ValidateAndEncryptCredentials (c : GCSFsConfig) (additionalData : String) :
    GCSFsConfig × Option String :=
  match c.validate with
  | (c, some e) => (c, some ("could not validate GCS config: " ++ e))
  | (c, none) =>
    let cred := c.Credentials.getD NewEmptySecret
    if cred.IsPlain then
      let cred := cred.SetAdditionalData additionalData
      let c := { c with Credentials := some cred }
      match cred.Encrypt with
      | .error e => (c, some ("could not encrypt GCS credentials: " ++ e))
      | .ok cred2 => ({ c with Credentials := some cred2 }, none)
    else (c, none)

structure AzBlobFsConfig where
  Container : String := ""
  AccountName : String := ""
  Endpoint : String := ""
  KeyPrefix : String := ""
  UploadPartSize : Int := 0
  UploadConcurrency : Int := 0
  DownloadPartSize : Int := 0
  DownloadConcurrency : Int := 0
  UseEmulator : Bool := false
  AccessTier : String := ""
  AccountKey : Option Secret := none
  SASURL : Option Secret := none
deriving DecidableEq

/-- `AzBlobFsConfig.isSecretEqual`: nil account keys are materialized to
empty secrets before comparison. -/
def AzBlobFsConfig.isSecretEqual (c other : AzBlobFsConfig) : Bool :=
  (c.AccountKey.getD NewEmptySecret).IsEqual (other.AccountKey.getD NewEmptySecret)

/-- `AzBlobFsConfig.isEqual`.  The Go code calls `IsEmpty` on both SAS URL
secrets unguarded, so a nil SAS URL panics: that case is `none`.  (The Go
code then replaces an empty SAS URL secret with a freshly built empty
secret before comparing; on the tagged model that replacement is the
identity, so it is dropped.) -/
def AzBlobFsConfig.isEqual (c other : AzBlobFsConfig) : Option Bool :=
  if c.Container ≠ other.Container then some false
  else if c.AccountName ≠ other.AccountName then some false
  else if c.Endpoint ≠ other.Endpoint then some false
  else
    match c.SASURL, other.SASURL with
    | some s1, some s2 =>
      some (
        if ¬ s1.IsEqual s2 then false
        else if c.KeyPrefix ≠ other.KeyPrefix then false
        else if c.UploadPartSize ≠ other.UploadPartSize then false
        else if c.UploadConcurrency ≠ other.UploadConcurrency then false
        else if c.DownloadPartSize ≠ other.DownloadPartSize then false
        else if c.DownloadConcurrency ≠ other.DownloadConcurrency then false
        else if c.UseEmulator ≠ other.UseEmulator then false
        else if c.AccessTier ≠ other.AccessTier then false
        else c.isSecretEqual other)
    | _, _ => none

/-- `AzBlobFsConfig.isSameResource`:  the final comparison dereferences
both SAS URL secrets, so a nil SAS URL panics (`none`). -/
def AzBlobFsConfig.isSameResource (c other : AzBlobFsConfig) : Option Bool :=
  if c.AccountName ≠ other.AccountName then some false
  else if c.Endpoint ≠ other.Endpoint then some false
  else
    match c.SASURL, other.SASURL with
    | some s1, some s2 => some (s1.GetPayload == s2.GetPayload)
    | _, _ => none

/-- `AzBlobFsConfig.checkCredentials`.  `urlParse` is `net/url.Parse`'s
error outcome (`some msg` when the plain SAS URL fails to parse): the
parser itself is external and only its error result is observable here.
`validate` materializes nil secrets before this runs. -/
def AzBlobFsConfig.checkCredentials (c : AzBlobFsConfig)
    (urlParse : String → Option String) : Option String :=
  let sas := c.SASURL.getD NewEmptySecret
  let key := c.AccountKey.getD NewEmptySecret
  if sas.IsPlain then urlParse sas.GetPayload
  else if sas.IsEncrypted ∧ ¬ sas.IsValid then some "invalid encrypted sas_url"
  else if ¬ sas.IsEmpty then none
  else if c.AccountName = "" ∨ ¬ key.IsValidInput then
    some "credentials cannot be empty or invalid"
  else if key.IsEncrypted ∧ ¬ key.IsValid then some "invalid encrypted account_key"
  else none

/-- `AzBlobFsConfig.checkPartSizeAndConcurrency` (the download-concurrency
message says "upload" in the source as well). -/
def AzBlobFsConfig.checkPartSizeAndConcurrency (c : AzBlobFsConfig) : Option String :=
  if c.UploadPartSize < 0 ∨ c.UploadPartSize > 100 then some "invalid upload part size"
  else if c.UploadConcurrency < 0 ∨ c.UploadConcurrency > 64 then
    some "invalid upload concurrency"
  else if c.DownloadPartSize < 0 ∨ c.DownloadPartSize > 100 then
    some "invalid download part size"
  else if c.DownloadConcurrency < 0 ∨ c.DownloadConcurrency > 64 then
    some "invalid upload concurrency"
  else none

/-- The `validAzAccessTier` list. -/
def validAzAccessTier : List String := ["", "Archive", "Hot", "Cool"]

/-- Modelled from the spec: `util.Contains` (package `internal/util`, not
in the provided sources) is list membership. -/
def utilContains (xs : List String) (x : String) : Bool := xs.contains x

/-- `AzBlobFsConfig.validate`. -/
def AzBlobFsConfig.validate (c : AzBlobFsConfig)
    (urlParse : String → Option String) : AzBlobFsConfig × Option String :=
  let c := { c with AccountKey := some (c.AccountKey.getD NewEmptySecret) }
  let c := { c with SASURL := some (c.SASURL.getD NewEmptySecret) }
  if (c.SASURL.getD NewEmptySecret).IsEmpty ∧ c.Container = "" then
    (c, some "container cannot be empty")
  else
    match c.checkCredentials urlParse with
    | some e => (c, some e)
    | none =>
      match normalizeKeyPfx c.KeyPrefix with
      | .error e => (c, some e)
      | .ok kp =>
        let c := { c with KeyPrefix := kp }
        match c.checkPartSizeAndConcurrency with
        | some e => (c, some e)
        | none =>
          if ¬ utilContains validAzAccessTier c.AccessTier then
            (c, some "invalid access tier")
          else (c, none)

structure CryptFsConfig where
  Passphrase : Option Secret := none
deriving DecidableEq

/-- `CryptFsConfig.isEqual`: both sides' nil passphrases are materialized
to empty secrets before comparison (the receiver's materialization is a
persistent mutation in Go; the claims below are settled on configurations
where that does not matter, and the Crypt counterexample applies
`isSameResource` to the already-materialized receiver). -/
def CryptFsConfig.isEqual (c other : CryptFsConfig) : Bool :=
  (c.Passphrase.getD NewEmptySecret).IsEqual (other.Passphrase.getD NewEmptySecret)

/-- `CryptFsConfig.isSameResource`: dereferences both passphrase pointers
unguarded, so a nil passphrase panics (`none`). -/
def CryptFsConfig.isSameResource (c other : CryptFsConfig) : Option Bool :=
  match c.Passphrase, other.Passphrase with
  | some p1, some p2 => some (p1.GetPayload == p2.GetPayload)
  | _, _ => none

/-! ### QuotaCheckResult -/

/-- Go two's-complement int64 wrap-around on mathematical integers. -/
def wrap64 (x : Int) : Int :=
  (x + 9223372036854775808) % 18446744073709551616 - 9223372036854775808

/-- The int64 value range. -/
def int64InRange (x : Int) : Prop :=
  -9223372036854775808 ≤ x ∧ x < 9223372036854775808

instance (x : Int) : Decidable (int64InRange x) := by
  unfold int64InRange
  infer_instance

structure QuotaCheckResult where
  HasSpace : Bool := false
  AllowedSize : Int := 0
  AllowedFiles : Int := 0
  UsedSize : Int := 0
  UsedFiles : Int := 0
  QuotaSize : Int := 0
  QuotaFiles : Int := 0
deriving DecidableEq

/-- `QuotaCheckResult.GetRemainingSize` (int64 subtraction wraps). -/
def QuotaCheckResult.GetRemainingSize (q : QuotaCheckResult) : Int :=
  if q.QuotaSize > 0 then wrap64 (q.QuotaSize - q.UsedSize) else 0

/-- `QuotaCheckResult.GetRemainingFiles` (int subtraction wraps; Go's int
is 64 bits wide on the supported platforms). -/
def QuotaCheckResult.GetRemainingFiles (q : QuotaCheckResult) : Int :=
  if q.QuotaFiles > 0 then wrap64 (q.QuotaFiles - q.UsedFiles) else 0

/-- `isEqualityCheckModeValid`: the source tests `mode >= 0 || mode <= 1`
(a disjunction, exactly as written there). -/
def isEqualityCheckModeValid (mode : Int) : Bool :=
  decide (mode ≥ 0 ∨ mode ≤ 1)

/-! ### PipeWriter

`PipeWriter.Close` closes the inner `pipeat` writer, then receives from
the unbuffered `done` channel, then returns the `err` field;
`PipeWriter.Done(err)` stores its argument into the `err` field, then
sends on `done`.  The two goroutines are embedded as a two-thread
interleaving transition system; the unbuffered channel's send and matching
receive synchronize in a single rendezvous step. -/

/-- One configuration of the two-thread PipeWriter protocol.  `up` is the
uploader's program counter (0 = before `Done`'s store, 1 = error stored,
blocked on the channel send, 2 = send completed), `cl` the closer's (0 =
before `Close`, 1 = inner writer closed, blocked on the receive, 2 =
receive completed, 3 = returned).  `err` is the `err` field (`none` is
Go's nil zero value), `writerClosed` records the close of the inner
`pipeat.PipeWriterAt`, and `ret` is the value returned by `Close` (`none`
while it has not returned). -/
structure PWConfig (γ : Type) where
  up : Nat
  cl : Nat
  err : Option γ
  writerClosed : Bool
  ret : Option (Option γ)
deriving DecidableEq

/-- The initial configuration: neither goroutine has run. -/
def pwInit (γ : Type) : PWConfig γ := ⟨0, 0, none, false, none⟩

/-- The interleaving step relation of `Done(e)` against `Close()`. -/
inductive PWStep {γ : Type} (e : Option γ) : PWConfig γ → PWConfig γ → Prop where
  | setErr (cl err wc ret) :
      PWStep e ⟨0, cl, err, wc, ret⟩ ⟨1, cl, e, wc, ret⟩
  | closeWriter (up err ret) :
      PWStep e ⟨up, 0, err, false, ret⟩ ⟨up, 1, err, true, ret⟩
  | sync (err wc ret) :
      PWStep e ⟨1, 1, err, wc, ret⟩ ⟨2, 2, err, wc, ret⟩
  | pwReturn (up err wc) :
      PWStep e ⟨up, 2, err, wc, none⟩ ⟨up, 3, err, wc, some err⟩

/-- Reachability under `PWStep`. -/
inductive PWReaches {γ : Type} (e : Option γ) : PWConfig γ → PWConfig γ → Prop where
  | refl (s) : PWReaches e s s
  | tail {s t u} : PWReaches e s t → PWStep e t u → PWReaches e s u

/-! ### Metadata reconciliation sweep -/

/-- Modelled from the spec: the plugin-host contract the sweep consumes
(`plugin.Handler`, not part of the provided sources): folder pagination,
per-folder modification-time maps and metadata removal, all fallible.  A
modification-time map is represented as its key-value list in iteration
order; the backend file-name map as its key list. -/
structure MetadataPlugin where
  hasMetadater : Bool
  getMetadataFolders : String → String → Nat → Except String (List String)
  getModificationTimes : String → String → Except String (List (String × Int))
  removeMetadata : String → String → Except String Unit

/-- The one extension method of the `fsMetadataChecker` interface. -/
structure MetadataChecker where
  getFileNamesInPrefix : String → Except String (List String)

inductive LogLevel where
  | debug
  | error
deriving DecidableEq

/-- The observable trace of one sweep: every `RemoveMetadata` call's
`(storageID, path)` argument pair in order, and the log events. -/
structure SweepTrace where
  removed : List (String × String)
  logs : List (LogLevel × String)
deriving DecidableEq

def SweepTrace.push (t : SweepTrace) (lvl : LogLevel) (msg : String) : SweepTrace :=
  { t with logs := t.logs ++ [(lvl, msg)] }

def SweepTrace.callRemove (t : SweepTrace) (sid fp : String) : SweepTrace :=
  { t with removed := t.removed ++ [(sid, fp)] }

inductive SweepResult where
  | ok
  | err (e : String)
  | outOfFuel
deriving DecidableEq

/-- The inner loop of `fsMetadataCheck` over the metadata keys of one
folder: a key with no live object gets its metadata removed, and the
outcome of the removal is only logged. -/
def removeOrphans (h : MetadataPlugin) (sid folder : String) (fileNames : List String) :
    List (String × Int) → SweepTrace → SweepTrace
  | [], t => t
  | (k, _) :: rest, t =>
    let t :=
      if fileNames.contains k then t
      else
        let fp := ensureAbsPath (goJoin2 folder k)
        let t := t.callRemove sid fp
        match h.removeMetadata sid fp with
        | .error e =>
          t.push .error ("unable to remove metadata for missing file " ++ fp ++ ": " ++ e)
        | .ok _ => t.push .debug ("metadata removed for missing file " ++ fp)
    removeOrphans h sid folder fileNames rest t

/-- The per-folder body of `fsMetadataCheck`: prefix filtering, the
modification-time fetch, the live listing and the orphan removal.  The
second component is the abort error, `none` to continue. -/
def processFolder (h : MetadataPlugin) (fs : MetadataChecker) (sid keyPfx folder : String)
    (t : SweepTrace) : SweepTrace × Option String :=
  let fsPfx := if ¬ goHasSuffix folder "/" then folder ++ "/" else folder
  if keyPfx ≠ "" ∧ ¬ goHasPrefix fsPfx ("/" ++ keyPfx) then
    (t.push .debug ("skip metadata check for folder " ++ folder ++ " outside prefix " ++ keyPfx),
      none)
  else
    let t := t.push .debug ("check metadata for folder " ++ folder)
    match h.getModificationTimes sid folder with
    | .error e =>
      (t.push .error ("unable to get modification times for folder " ++ folder ++ ": " ++ e),
        some e)
    | .ok metadataValues =>
      if metadataValues.length = 0 then
        (t.push .debug ("no metadata for folder " ++ folder), none)
      else
        match fs.getFileNamesInPrefix fsPfx with
        | .error e =>
          (t.push .error ("unable to get content for prefix " ++ fsPfx ++ ": " ++ e), some e)
        | .ok fileNames => (removeOrphans h sid folder fileNames metadataValues t, none)

/-- The folder loop of one page: threads the pagination cursor (Go's
`from` variable, advanced to each folder) and stops at the first abort. -/
def processFolders (h : MetadataPlugin) (fs : MetadataChecker) (sid keyPfx : String) :
    List String → String → SweepTrace → SweepTrace × String × Option String
  | [], frm, t => (t, frm, none)
  | folder :: rest, _, t =>
    match processFolder h fs sid keyPfx folder t with
    | (t, some e) => (t, folder, some e)
    | (t, none) => processFolders h fs sid keyPfx rest folder t

/-- The pagination loop of `fsMetadataCheck` (`limit = 100`).  The Go loop
has no bound of its own; `fuel` bounds it here and running out yields the
distinguished `outOfFuel` result. -/
def fsMetadataCheckLoop (h : MetadataPlugin) (fs : MetadataChecker) (sid keyPfx : String) :
    Nat → String → SweepTrace → SweepTrace × SweepResult
  | 0, _, t => (t, .outOfFuel)
  | fuel + 1, frm, t =>
    match h.getMetadataFolders sid frm 100 with
    | .error e => (t.push .error ("unable to get folders: " ++ e), .err e)
    | .ok metadataFolders =>
      match processFolders h fs sid keyPfx metadataFolders frm t with
      | (t, _, some e) => (t, .err e)
      | (t, frm2, none) =>
        if metadataFolders.length < 100 then (t, .ok)
        else fsMetadataCheckLoop h fs sid keyPfx fuel frm2 t

/-- `fsMetadataCheck`: a no-op without a metadata plugin, otherwise the
pagination loop from an empty cursor. -/
def fsMetadataCheck (h : MetadataPlugin) (fs : MetadataChecker) (sid keyPfx : String)
    (fuel : Nat) : SweepTrace × SweepResult :=
  if ¬ h.hasMetadater then (⟨[], []⟩, .ok)
  else fsMetadataCheckLoop h fs sid keyPfx fuel "" ⟨[], []⟩

/-- The shape the key-prefix claim asserts after successful validation:
empty, or slash-terminated without a leading slash. -/
def goodKeyPfx (k : String) : Prop :=
  k = "" ∨ (goHasPrefix k "/" = false ∧ goHasSuffix k "/" = true)

instance (k : String) : Decidable (goodKeyPfx k) := by
  unfold goodKeyPfx
  infer_instance

example : goClean "a//b" = "a/b" := by decide
example : goClean "/a/../../b" = "/b" := by decide
example : goClean "a/../../b" = "../b" := by decide
example : goClean "foo/bar" = "foo/bar" := by decide
example : goClean "a/" = "a" := by decide
example : goClean "" = "." := by decide
example : goClean "/" = "/" := by decide
example : goClean "a/.." = "." := by decide
example : ensureAbsPath "a//b" = "/a/b" := by decide
example : ensureAbsPath "/p/a/y" = "/p/a/y" := by decide
example : ensureAbsPath "" = "/" := by decide

/-! ### Theorems -/

/-- C5: the claim reads the documented valid set of equality-check modes as
exactly 0 and 1, but the source tests mode greater-or-equal 0 OR
less-or-equal 1, a tautology: the code accepts the out-of-set input 2 (and
every other integer), so the code, not the claim, is at fault.  The
theorem evaluates the source's predicate at the failing input and shows
the disjunction accepts every integer. -/
theorem equality_check_mode_tautology :
    isEqualityCheckModeValid 2 = true ∧ ¬ ((2 : Int) = 0 ∨ (2 : Int) = 1) ∧
      ∀ mode : Int, isEqualityCheckModeValid mode = true := by
  refine ⟨by decide, by decide, fun mode => ?_⟩
  simp only [isEqualityCheckModeValid, decide_eq_true_eq]
  omega

/-- C9: GetRemainingSize is quota minus used (int64 subtraction, which
wraps) when the size quota is positive and 0 otherwise, likewise
GetRemainingFiles; hence remaining plus used equals the quota, in int64
arithmetic, whenever the quota is positive. -/
theorem quota_remaining_plus_used (q : QuotaCheckResult)
    (hqs : int64InRange q.QuotaSize) (hqf : int64InRange q.QuotaFiles) :
    (q.QuotaSize > 0 → q.GetRemainingSize = wrap64 (q.QuotaSize - q.UsedSize) ∧
      wrap64 (q.GetRemainingSize + q.UsedSize) = q.QuotaSize) ∧
    (¬ q.QuotaSize > 0 → q.GetRemainingSize = 0) ∧
    (q.QuotaFiles > 0 → q.GetRemainingFiles = wrap64 (q.QuotaFiles - q.UsedFiles) ∧
      wrap64 (q.GetRemainingFiles + q.UsedFiles) = q.QuotaFiles) ∧
    (¬ q.QuotaFiles > 0 → q.GetRemainingFiles = 0) := by
  have key : ∀ a b : Int, int64InRange a → wrap64 (wrap64 (a - b) + b) = a := by
    intro a b ha
    unfold int64InRange at ha
    unfold wrap64
    omega
  refine ⟨fun h => ⟨?_, ?_⟩, fun h => ?_, fun h => ⟨?_, ?_⟩, fun h => ?_⟩
  · simp [QuotaCheckResult.GetRemainingSize, h]
  · simp only [QuotaCheckResult.GetRemainingSize, if_pos h]
    exact key _ _ hqs
  · simp [QuotaCheckResult.GetRemainingSize, h]
  · simp [QuotaCheckResult.GetRemainingFiles, h]
  · simp only [QuotaCheckResult.GetRemainingFiles, if_pos h]
    exact key _ _ hqf
  · simp [QuotaCheckResult.GetRemainingFiles, h]

/-- C9 witness: the theorem applied at two concrete quota records. -/
theorem quota_remaining_plus_used_witness :
    wrap64 ((QuotaCheckResult.GetRemainingSize
        { QuotaSize := 100, UsedSize := 30 }) + 30) = 100 ∧
    QuotaCheckResult.GetRemainingFiles { QuotaFiles := 0, UsedFiles := 3 } = 0 :=
  ⟨((quota_remaining_plus_used { QuotaSize := 100, UsedSize := 30 }
      (by decide) (by decide)).1 (by decide)).2,
   (quota_remaining_plus_used { QuotaFiles := 0, UsedFiles := 3 }
      (by decide) (by decide)).2.2.2 (by decide)⟩

/-- String append acts as list append on the underlying character data. -/
theorem stringDataAppend (a b : String) : (a ++ b).data = a.data ++ b.data := by
  cases a; cases b; rfl

/-- Splitting a string that starts with '/' yields a leading empty
component. -/
theorem splitSlash_slash (l : List Char) : splitSlash ('/' :: l) = [] :: splitSlash l := by
  simp [splitSlash]

/-- An empty component is dropped by the cleaning stack. -/
theorem cleanPush_nil (rooted : Bool) (st : List (List Char)) : cleanPush rooted st [] = st := by
  simp [cleanPush, dotdot]

/-- A doubled leading slash cleans like a single one. -/
theorem cleanChars_double_slash (l : List Char) :
    cleanChars ('/' :: '/' :: l) = cleanChars ('/' :: l) := by
  simp [cleanChars, splitSlash_slash, cleanPush_nil]

/-- C6 counterexample: the claim says a relative name maps to "/" plus the
name, but ensureAbsPath("a//b") is the cleaned "/a/b", not "/a//b". -/
theorem ensureAbsPath_counterexample :
    ensureAbsPath "a//b" ≠ "/" ++ "a//b" ∧ ensureAbsPath "a//b" = "/a/b" := by
  decide

/-- C6 (amended): ensureAbsPath returns the name unchanged when it starts
with "/"; otherwise it returns path.Clean of "/" plus the name — which
equals "/" plus the name exactly when that concatenation is already in
cleaned form. -/
theorem ensureAbsPath_clean (name : String) :
    (goHasPrefix name "/" = true → ensureAbsPath name = name) ∧
    (goHasPrefix name "/" = false → ensureAbsPath name = goClean ("/" ++ name)) := by
  constructor
  · intro h
    simp [ensureAbsPath, goIsAbs, h]
  · intro h
    simp only [ensureAbsPath, goIsAbs, h, Bool.false_eq_true, if_false]
    simp only [goJoin2]
    rw [if_neg (by decide : ¬ ("/" : String) = "")]
    by_cases hb : name = ""
    · subst hb; decide
    · rw [if_neg hb]
      show String.mk (cleanChars ("/" ++ "/" ++ name).data)
        = String.mk (cleanChars ("/" ++ name).data)
      have h2 : ("/" ++ "/" ++ name).data = '/' :: '/' :: name.data := by
        rw [stringDataAppend, stringDataAppend]; rfl
      have h1 : ("/" ++ name).data = '/' :: name.data := by
        rw [stringDataAppend]; rfl
      rw [h2, h1, cleanChars_double_slash]

/-- C6 witness: the amended theorem applied at a relative and at an
absolute concrete name. -/
theorem ensureAbsPath_clean_witness :
    ensureAbsPath "a//b" = goClean ("/" ++ "a//b") ∧ ensureAbsPath "/p" = "/p" :=
  ⟨(ensureAbsPath_clean "a//b").2 (by decide), (ensureAbsPath_clean "/p").1 (by decide)⟩

/-- C10: with automatic credentials selected, the first statement of GCS
validate replaces the credentials with a fresh empty secret before any
check runs, so whether validate succeeds or fails the resulting
credentials are the empty secret; and a subsequent
ValidateAndEncryptCredentials (which re-runs validate and only encrypts a
plain secret) leaves them the empty secret — nothing is encrypted. -/
theorem gcs_auto_credentials (c : GCSFsConfig) (ad : String)
    (h : c.AutomaticCredentials = 1) :
    (c.validate).1.Credentials = some NewEmptySecret ∧
    (c.ValidateAndEncryptCredentials ad).1.Credentials = some NewEmptySecret := by
  have h1 : (c.validate).1.Credentials = some NewEmptySecret := by
    unfold GCSFsConfig.validate
    rw [if_pos (Or.inr h)]
    dsimp only
    split
    · rfl
    · split
      · rfl
      · split
        · rfl
        · split
          · rfl
          · split <;> split <;> rfl
  refine ⟨h1, ?_⟩
  unfold GCSFsConfig.ValidateAndEncryptCredentials
  rcases hv : c.validate with ⟨c2, e⟩
  rw [hv] at h1
  simp only at h1
  cases e with
  | some err => simpa using h1
  | none => simp [h1, NewEmptySecret, Secret.IsPlain]

/-- C10 witness: a GCS config carrying a plain credential but with
automatic credentials selected, run through validate and through
ValidateAndEncryptCredentials. -/
theorem gcs_auto_credentials_witness :
    (GCSFsConfig.validate
      { Bucket := "b", AutomaticCredentials := 1,
        Credentials := some (Secret.plain "json" "") }).1.Credentials
      = some NewEmptySecret ∧
    (GCSFsConfig.ValidateAndEncryptCredentials
      { Bucket := "b", AutomaticCredentials := 1,
        Credentials := some (Secret.plain "json" "") } "user").1.Credentials
      = some NewEmptySecret :=
  gcs_auto_credentials
    { Bucket := "b", AutomaticCredentials := 1,
      Credentials := some (Secret.plain "json" "") } "user" (by decide)

/-- Auxiliary: with a non-empty bucket and region, S3 validate surfaces the
credential check's error unchanged. -/
theorem s3_validate_credentials_error (c : S3FsConfig) (hb : ¬ c.Bucket = "")
    (hr : ¬ c.Region = "") (e : String)
    (he : S3FsConfig.checkCredentials
      { c with AccessSecret := some (c.AccessSecret.getD NewEmptySecret) } = some e) :
    (c.validate).2 = some e := by
  unfold S3FsConfig.validate
  dsimp only
  rw [if_neg hb, if_neg (fun hx => hr hx.2), he]

/-- Auxiliary: materializing the nil access secret does not change the
credential check's verdict. -/
theorem s3_checkCredentials_materialize (c : S3FsConfig) :
    S3FsConfig.checkCredentials
      { c with AccessSecret := some (c.AccessSecret.getD NewEmptySecret) }
      = c.checkCredentials := by
  simp [S3FsConfig.checkCredentials]

/-- C8: for an S3 config with non-empty bucket and region, validation
fails with the validation error naming the missing side whenever exactly
one of access key and access secret is empty; the credential check passes
when both are empty, and when both are present with a well-formed
secret. -/
theorem s3_credential_coupling (c : S3FsConfig)
    (hb : ¬ c.Bucket = "") (hr : ¬ c.Region = "") :
    (c.AccessKey = "" → (c.AccessSecret.getD NewEmptySecret).IsEmpty = false →
      (c.validate).2 = some "access_key cannot be empty with access_secret not empty") ∧
    ((c.AccessSecret.getD NewEmptySecret).IsEmpty = true → ¬ c.AccessKey = "" →
      (c.validate).2 = some "access_secret cannot be empty with access_key not empty") ∧
    (c.AccessKey = "" → (c.AccessSecret.getD NewEmptySecret).IsEmpty = true →
      c.checkCredentials = none) ∧
    (¬ c.AccessKey = "" → (c.AccessSecret.getD NewEmptySecret).IsEmpty = false →
      (c.AccessSecret.getD NewEmptySecret).IsValidInput = true →
      ((c.AccessSecret.getD NewEmptySecret).IsEncrypted = true →
        (c.AccessSecret.getD NewEmptySecret).IsValid = true) →
      c.checkCredentials = none) := by
  refine ⟨?_, ?_, ?_, ?_⟩
  · intro hk hs
    apply s3_validate_credentials_error c hb hr
    rw [s3_checkCredentials_materialize]
    unfold S3FsConfig.checkCredentials
    rw [if_pos ⟨hk, by simp [hs]⟩]
  · intro hs hk
    apply s3_validate_credentials_error c hb hr
    rw [s3_checkCredentials_materialize]
    unfold S3FsConfig.checkCredentials
    rw [if_neg (by simp [hs]), if_pos ⟨by simp [hs], hk⟩]
  · intro hk hs
    have hse : c.AccessSecret.getD NewEmptySecret = Secret.empty := by
      rcases hx : c.AccessSecret.getD NewEmptySecret <;> simp_all [Secret.IsEmpty]
    simp [S3FsConfig.checkCredentials, hse, hk, Secret.IsEmpty, Secret.IsEncrypted]
  · intro hk hs hvi hev
    unfold S3FsConfig.checkCredentials
    rw [if_neg (by simp [hk]), if_neg (by simp [hs]), if_neg ?_, if_neg (by simp [hvi])]
    rintro ⟨henc, hval⟩
    exact hval (hev henc)

/-- C8 witness: the theorem applied at the spec's credential-coupling
scenario (key set, secret empty) and at a well-formed plain pair. -/
theorem s3_credential_coupling_witness :
    (S3FsConfig.validate
      { Bucket := "b", Region := "x", AccessKey := "AKIA", AccessSecret := none }).2
      = some "access_secret cannot be empty with access_key not empty" ∧
    S3FsConfig.checkCredentials
      { Bucket := "b", Region := "x", AccessKey := "AKIA",
        AccessSecret := some (Secret.plain "secret" "") } = none :=
  ⟨(s3_credential_coupling
      { Bucket := "b", Region := "x", AccessKey := "AKIA", AccessSecret := none }
      (by decide) (by decide)).2.1 (by decide) (by decide),
   (s3_credential_coupling
      { Bucket := "b", Region := "x", AccessKey := "AKIA",
        AccessSecret := some (Secret.plain "secret" "") }
      (by decide) (by decide)).2.2.2 (by decide) (by decide) (by decide) (by decide)⟩

/-- C7 counterexample: two Crypt configs with nil passphrases compare
equal under isEqual (nil is materialized to the empty secret on both
sides), but isSameResource dereferences the nil passphrase pointers
unguarded and panics instead of holding.  The Go call a.isEqual(b)
materializes only the receiver's passphrase, so the subsequent
a.isSameResource(b) still panics on b's nil pointer: both the raw pair and
the pair with the receiver materialized are shown. -/
theorem crypt_nil_passphrase_counterexample :
    CryptFsConfig.isEqual { Passphrase := none } { Passphrase := none } = true ∧
    CryptFsConfig.isSameResource { Passphrase := some NewEmptySecret }
      { Passphrase := none } = none ∧
    CryptFsConfig.isSameResource { Passphrase := none } { Passphrase := none } = none := by
  decide

set_option maxHeartbeats 1600000 in
/-- C7 (amended): isEqual implies isSameResource for the S3, GCS and Azure
Blob families unconditionally; for the Crypt family it holds provided both
passphrase secrets are present (non-nil), the case in which the Go
isSameResource does not dereference a nil pointer. -/
theorem is_equal_implies_same_resource :
    (∀ a b : S3FsConfig, a.isEqual b = true → a.isSameResource b = true) ∧
    (∀ a b : GCSFsConfig, a.isEqual b = true → a.isSameResource b = true) ∧
    (∀ a b : AzBlobFsConfig, a.isEqual b = some true → a.isSameResource b = some true) ∧
    (∀ a b : CryptFsConfig, ¬ a.Passphrase = none → ¬ b.Passphrase = none →
      a.isEqual b = true → a.isSameResource b = some true) := by
  refine ⟨?_, ?_, ?_, ?_⟩
  · intro a b h
    unfold S3FsConfig.isEqual at h
    by_cases h1 : a.Bucket ≠ b.Bucket
    · rw [if_pos h1] at h; exact absurd h (by simp)
    rw [if_neg h1] at h
    by_cases h2 : a.KeyPrefix ≠ b.KeyPrefix
    · rw [if_pos h2] at h; exact absurd h (by simp)
    rw [if_neg h2] at h
    by_cases h3 : a.Region ≠ b.Region
    · rw [if_pos h3] at h; exact absurd h (by simp)
    rw [if_neg h3] at h
    by_cases h4 : a.AccessKey ≠ b.AccessKey
    · rw [if_pos h4] at h; exact absurd h (by simp)
    rw [if_neg h4] at h
    by_cases h5 : a.RoleARN ≠ b.RoleARN
    · rw [if_pos h5] at h; exact absurd h (by simp)
    rw [if_neg h5] at h
    by_cases h6 : a.Endpoint ≠ b.Endpoint
    · rw [if_pos h6] at h; exact absurd h (by simp)
    unfold S3FsConfig.isSameResource
    rw [if_neg h1, if_neg h6]
    simp only [ne_eq, not_not] at h3
    simp [h3]
  · intro a b h
    unfold GCSFsConfig.isEqual at h
    by_cases h1 : a.Bucket ≠ b.Bucket
    · rw [if_pos h1] at h; exact absurd h (by simp)
    unfold GCSFsConfig.isSameResource
    simp only [ne_eq, not_not] at h1
    simp [h1]
  · intro a b h
    unfold AzBlobFsConfig.isEqual at h
    by_cases h1 : a.Container ≠ b.Container
    · rw [if_pos h1] at h; exact absurd h (by simp)
    rw [if_neg h1] at h
    by_cases h2 : a.AccountName ≠ b.AccountName
    · rw [if_pos h2] at h; exact absurd h (by simp)
    rw [if_neg h2] at h
    by_cases h3 : a.Endpoint ≠ b.Endpoint
    · rw [if_pos h3] at h; exact absurd h (by simp)
    rw [if_neg h3] at h
    rcases ha : a.SASURL with _ | s1
    · rw [ha] at h; exact absurd h (by simp)
    rcases hb : b.SASURL with _ | s2
    · rw [ha, hb] at h; exact absurd h (by simp)
    rw [ha, hb] at h
    simp only [Option.some.injEq] at h
    by_cases hs : ¬ s1.IsEqual s2 = true
    · rw [if_pos hs] at h; exact absurd h (by simp)
    have hss : s1 = s2 := by
      have := not_not.mp hs
      simpa [Secret.IsEqual, beq_iff_eq] using this
    unfold AzBlobFsConfig.isSameResource
    rw [if_neg h2, if_neg h3, ha, hb]
    simp [hss]
  · intro a b ha hb h
    rcases hpa : a.Passphrase with _ | p1
    · exact absurd hpa ha
    rcases hpb : b.Passphrase with _ | p2
    · exact absurd hpb hb
    unfold CryptFsConfig.isEqual at h
    rw [hpa, hpb] at h
    simp only [Option.getD_some, Secret.IsEqual, beq_iff_eq] at h
    unfold CryptFsConfig.isSameResource
    rw [hpa, hpb, h]
    simp

/-- splitSlash never returns the empty list. -/
theorem splitSlash_ne_nil (l : List Char) : splitSlash l ≠ [] := by
  cases l with
  | nil => simp [splitSlash]
  | cons c cs =>
    rw [splitSlash]
    by_cases hc : c = '/'
    · simp [hc]
    · rw [if_neg hc]
      split <;> simp

/-- No '/' survives inside a component produced by splitSlash. -/
theorem splitSlash_no_slash (l : List Char) : ∀ p ∈ splitSlash l, '/' ∉ p := by
  induction l with
  | nil => simp [splitSlash]
  | cons c cs ih =>
    rw [splitSlash]
    by_cases hc : c = '/'
    · rw [if_pos hc]
      intro p hp
      rcases List.mem_cons.mp hp with h | h
      · simp [h]
      · exact ih p h
    · rw [if_neg hc]
      cases hr : splitSlash cs with
      | nil => exact absurd hr (splitSlash_ne_nil cs)
      | cons q qs =>
        intro p hp
        rcases List.mem_cons.mp hp with h | h
        · subst h
          intro hmem
          rcases List.mem_cons.mp hmem with h' | h'
          · exact hc h'.symm
          · exact ih q (by rw [hr]; exact List.mem_cons_self q qs) h'
        · exact ih p (by rw [hr]; exact List.mem_cons_of_mem q h)

/-- Components on the cleaning stack stay non-empty and slash-free. -/
theorem cleanPush_inv (rooted : Bool) (st : List (List Char)) (comp : List Char)
    (hst : ∀ x ∈ st, x ≠ [] ∧ '/' ∉ x) (hc : '/' ∉ comp) :
    ∀ x ∈ cleanPush rooted st comp, x ≠ [] ∧ '/' ∉ x := by
  unfold cleanPush
  by_cases h1 : comp = [] ∨ comp = ['.']
  · rw [if_pos h1]; exact hst
  · rw [if_neg h1]
    by_cases h2 : comp = dotdot
    · rw [if_pos h2]
      cases st with
      | nil => cases rooted <;> simp [dotdot]
      | cons top rest =>
        dsimp only
        by_cases ht : top = dotdot
        · rw [if_pos ht]
          intro x hx
          rcases List.mem_cons.mp hx with h | h
          · subst h; exact ⟨by simp [dotdot], by decide⟩
          · exact hst x h
        · rw [if_neg ht]
          intro x hx
          exact hst x (List.mem_cons_of_mem top hx)
    · rw [if_neg h2]
      intro x hx
      rcases List.mem_cons.mp hx with h | h
      · subst h; exact ⟨fun hn => h1 (Or.inl hn), hc⟩
      · exact hst x h

/-- The fold of cleanPush over slash-free components preserves the stack
invariant. -/
theorem cleanStack_inv (rooted : Bool) :
    ∀ (parts : List (List Char)) (st : List (List Char)),
      (∀ x ∈ st, x ≠ [] ∧ '/' ∉ x) → (∀ p ∈ parts, '/' ∉ p) →
      ∀ x ∈ parts.foldl (cleanPush rooted) st, x ≠ [] ∧ '/' ∉ x
  | [], st, hst, _ => by simpa using hst
  | p :: ps, st, hst, hps => by
    rw [List.foldl_cons]
    exact cleanStack_inv rooted ps (cleanPush rooted st p)
      (cleanPush_inv rooted st p hst (hps p (List.mem_cons_self p ps)))
      (fun q hq => hps q (List.mem_cons_of_mem p hq))

/-- The two-or-more-components equation of joinParts. -/
theorem joinParts_cons₂ (p q : List Char) (qs : List (List Char)) :
    joinParts (p :: q :: qs) = p ++ '/' :: joinParts (q :: qs) := rfl

/-- Joining a non-empty list of non-empty slash-free components yields a
non-empty word whose first character is not '/'. -/
theorem joinParts_first (l : List (List Char)) (hne : l ≠ [])
    (h : ∀ x ∈ l, x ≠ [] ∧ '/' ∉ x) :
    joinParts l ≠ [] ∧ ∀ c cs, joinParts l = c :: cs → c ≠ '/' := by
  cases l with
  | nil => exact absurd rfl hne
  | cons p ps =>
    have hp := h p (List.mem_cons_self p ps)
    obtain ⟨a, as, rfl⟩ := List.exists_cons_of_ne_nil hp.1
    cases ps with
    | nil =>
      refine ⟨by simp [joinParts], ?_⟩
      intro c cs hc heq
      rw [joinParts] at hc
      cases hc
      subst heq
      exact hp.2 (List.mem_cons_self _ _)
    | cons q qs =>
      refine ⟨by rw [joinParts_cons₂]; simp, ?_⟩
      intro c cs hc heq
      rw [joinParts_cons₂, List.cons_append] at hc
      cases hc
      subst heq
      exact hp.2 (List.mem_cons_self _ _)

/-- Cleaning a non-empty relative path yields a non-empty relative word:
the result has a first character and it is not '/'. -/
theorem cleanChars_relative (p : List Char) (hne : p ≠ []) (hp : p.head? ≠ some '/') :
    cleanChars p ≠ [] ∧ ∀ c cs, cleanChars p = c :: cs → c ≠ '/' := by
  unfold cleanChars
  rw [if_neg hne]
  dsimp only
  have hr : (p.head? == some '/') = false := beq_eq_false_iff_ne.mpr hp
  rw [hr]
  simp only [Bool.false_eq_true, if_false]
  have hinv : ∀ x ∈ ((splitSlash p).foldl (cleanPush false) []).reverse,
      x ≠ [] ∧ '/' ∉ x := by
    intro x hx
    exact cleanStack_inv false (splitSlash p) [] (by simp) (splitSlash_no_slash p) x
      (List.mem_reverse.mp hx)
  by_cases hb : joinParts ((splitSlash p).foldl (cleanPush false) []).reverse = []
  · rw [if_pos hb]
    exact ⟨by simp, fun c cs hc => by cases hc; decide⟩
  · rw [if_neg hb]
    exact ⟨hb, (joinParts_first _ (fun h0 => hb (by rw [h0]; rfl)) hinv).2⟩

/-- A one-character '/' prefix test reads the head. -/
theorem isPrefixOf_slash_eq_false (l : List Char) :
    (['/'].isPrefixOf l = false) ↔ l.head? ≠ some '/' := by
  cases l with
  | nil => simp [List.isPrefixOf]
  | cons c cs =>
    have hred : (['/'].isPrefixOf (c :: cs)) = ('/' == c) := by
      simp [List.isPrefixOf]
    rw [hred, beq_eq_false_iff_ne, List.head?_cons]
    simp only [ne_eq, Option.some.injEq]
    exact ⟨fun h he => h he.symm, fun h he => h he.symm⟩

/-- Appending '/' makes '/' a suffix. -/
theorem isSuffixOf_slash_append (l : List Char) : ['/'].isSuffixOf (l ++ ['/']) = true := by
  simp [List.isSuffixOf, List.isPrefixOf]

/-- The character data of the one-character string "/". -/
theorem slashData : ("/" : String).data = ['/'] := rfl

/-- A non-empty string has non-empty character data. -/
theorem string_ne_empty_data (k : String) (h : k ≠ "") : k.data ≠ [] := by
  intro hd
  apply h
  cases k
  simp only at hd
  rw [hd]

/-- The key-prefix normalization block yields either the empty prefix or a
slash-terminated prefix without a leading slash. -/
theorem normalizeKeyPfx_good (k r : String) (h : normalizeKeyPfx k = .ok r) :
    goodKeyPfx r := by
  unfold normalizeKeyPfx at h
  by_cases hk : k = ""
  · rw [if_neg (by simp [hk])] at h
    cases h
    exact Or.inl hk
  · rw [if_pos hk] at h
    by_cases hpre : goHasPrefix k "/"
    · rw [if_pos hpre] at h
      cases h
    · rw [if_neg hpre] at h
      have hpre' : (['/'].isPrefixOf k.data) = false := by
        rw [Bool.not_eq_true] at hpre
        rw [goHasPrefix, slashData] at hpre
        exact hpre
      have hhead : k.data.head? ≠ some '/' := (isPrefixOf_slash_eq_false k.data).mp hpre'
      have hclean := cleanChars_relative k.data (string_ne_empty_data k hk) hhead
      obtain ⟨a, as, ha⟩ := List.exists_cons_of_ne_nil hclean.1
      have hfst : a ≠ '/' := hclean.2 a as ha
      right
      dsimp only at h
      by_cases hsuf : goHasSuffix (goClean k) "/"
      · rw [if_neg (by simp [hsuf])] at h
        cases h
        refine ⟨?_, hsuf⟩
        rw [goHasPrefix, slashData, isPrefixOf_slash_eq_false]
        rw [show (goClean k).data = cleanChars k.data from rfl, ha]
        simp [hfst]
      · rw [if_pos (by simp [hsuf])] at h
        cases h
        constructor
        · rw [goHasPrefix, slashData, isPrefixOf_slash_eq_false]
          rw [stringDataAppend]
          rw [show (goClean k).data = cleanChars k.data from rfl]
          rw [List.head?_append_of_ne_nil _ hclean.1]
          rw [ha]
          simp [hfst]
        · rw [goHasSuffix, slashData, stringDataAppend]
          rw [show ("/" : String).data = ['/'] from rfl]
          exact isSuffixOf_slash_append _

/-- Auxiliary: a successful S3 validate leaves a well-shaped key prefix. -/
theorem s3_validate_keyPfx (c : S3FsConfig) (h : (c.validate).2 = none) :
    goodKeyPfx (c.validate).1.KeyPrefix := by
  revert h
  unfold S3FsConfig.validate
  dsimp only
  split
  · intro h; simp at h
  · split
    · intro h; simp at h
    · split
      · intro h; simp at h
      · split
        · intro h; simp at h
        · rename_i kp hkp
          intro _
          exact normalizeKeyPfx_good _ _ hkp

/-- Auxiliary: a successful GCS validate leaves a well-shaped key prefix. -/
theorem gcs_validate_keyPfx (c : GCSFsConfig) (h : (c.validate).2 = none) :
    goodKeyPfx (c.validate).1.KeyPrefix := by
  revert h
  unfold GCSFsConfig.validate
  dsimp only
  split <;>
    (split
     · intro h; simp at h
     · split
       · intro h; simp at h
       · rename_i kp hkp
         split
         · intro h; simp at h
         · split
           · intro h; simp at h
           · intro _
             dsimp only
             split <;> split <;> exact normalizeKeyPfx_good _ _ hkp)

/-- Auxiliary: a successful Azure Blob validate leaves a well-shaped key
prefix, whatever the URL parser reports. -/
theorem az_validate_keyPfx (urlParse : String → Option String) (c : AzBlobFsConfig)
    (h : (c.validate urlParse).2 = none) :
    goodKeyPfx (c.validate urlParse).1.KeyPrefix := by
  revert h
  unfold AzBlobFsConfig.validate
  dsimp only
  split
  · intro h; simp at h
  · split
    · intro h; simp at h
    · split
      · intro h; simp at h
      · rename_i kp hkp
        split
        · intro h; simp at h
        · split
          · intro h; simp at h
          · intro _
            exact normalizeKeyPfx_good _ _ hkp

/-- C2: whenever S3, GCS or Azure Blob validate succeeds, the resulting
key prefix is either the empty string, or it does not start with "/" and
ends with "/" (for Azure the external URL parser's outcome is quantified;
it cannot affect the key prefix). -/
theorem validate_keyPfx_normalized :
    (∀ c : S3FsConfig, (c.validate).2 = none → goodKeyPfx (c.validate).1.KeyPrefix) ∧
    (∀ c : GCSFsConfig, (c.validate).2 = none → goodKeyPfx (c.validate).1.KeyPrefix) ∧
    (∀ (urlParse : String → Option String) (c : AzBlobFsConfig),
      (c.validate urlParse).2 = none → goodKeyPfx (c.validate urlParse).1.KeyPrefix) :=
  ⟨s3_validate_keyPfx, gcs_validate_keyPfx, az_validate_keyPfx⟩

/-- C2 witness: the theorem applied at the spec's S3 key-prefix
normalization scenario and at concrete succeeding GCS and Azure configs. -/
theorem validate_keyPfx_normalized_witness :
    goodKeyPfx (S3FsConfig.validate
      { Bucket := "b", Region := "us-east-1", KeyPrefix := "foo/bar" }).1.KeyPrefix ∧
    goodKeyPfx (GCSFsConfig.validate
      { Bucket := "b", AutomaticCredentials := 1, KeyPrefix := "foo/bar" }).1.KeyPrefix ∧
    goodKeyPfx ((AzBlobFsConfig.validate
      { Container := "c", AccountName := "a", KeyPrefix := "foo/bar",
        AccountKey := some (Secret.plain "k" "") } (fun _ => none))).1.KeyPrefix :=
  ⟨validate_keyPfx_normalized.1 _ (by decide),
   validate_keyPfx_normalized.2.1 _ (by decide),
   validate_keyPfx_normalized.2.2 _ _ (by decide)⟩

/-- Auxiliary invariant of the Done/Close protocol: once the uploader has
run its store the error slot holds Done's argument, the closer is past the
receive only after the send, the inner writer closes before the receive,
and the returned value is the stored error. -/
theorem pw_invariant {γ : Type} (e : Option γ) (s : PWConfig γ)
    (h : PWReaches e (pwInit γ) s) :
    (s.up ≥ 1 → s.err = e) ∧ (s.cl ≥ 2 → s.up = 2) ∧
    (s.cl ≥ 1 → s.writerClosed = true) ∧ (s.cl = 3 → s.ret = some e) := by
  induction h with
  | refl => simp [pwInit]
  | tail hr step ih =>
    cases step with
    | setErr cl err wc ret =>
      exact ⟨fun _ => rfl, fun hcl => absurd (ih.2.1 hcl) (by simp),
        ih.2.2.1, ih.2.2.2⟩
    | closeWriter up err ret =>
      exact ⟨ih.1, fun h2 => absurd h2 (by simp), fun _ => rfl,
        fun h3 => absurd h3 (by simp)⟩
    | sync err wc ret =>
      exact ⟨fun _ => ih.1 (by simp), fun _ => rfl,
        fun _ => ih.2.2.1 (by simp), fun h3 => absurd h3 (by simp)⟩
    | pwReturn up err wc =>
      have hup : up = 2 := ih.2.1 (by simp)
      have herr : err = e := ih.1 (by simp [hup])
      exact ⟨fun _ => herr, fun _ => hup, fun _ => ih.2.2.1 (by simp),
        fun _ => by rw [herr]⟩

/-- C1: in every configuration reachable from the initial Done/Close
protocol state, the closer is past the channel receive only if the
uploader's Done already fired (Close blocks until Done is observed), the
inner pipe writer is already closed by then, and once Close has returned
its return value is exactly the error Done carried — nil included, the
error type being an arbitrary Option. -/
theorem pipewriter_close_returns_done_error {γ : Type} (e : Option γ) (s : PWConfig γ)
    (h : PWReaches e (pwInit γ) s) :
    (s.cl ≥ 2 → s.up = 2) ∧ (s.cl ≥ 1 → s.writerClosed = true) ∧
    (s.cl = 3 → s.ret = some e) :=
  ⟨(pw_invariant e s h).2.1, (pw_invariant e s h).2.2.1, (pw_invariant e s h).2.2.2⟩

/-- C1 witness: a complete interleaved run carrying the nil error, driven
to the returned state and evaluated through the theorem. -/
theorem pipewriter_close_returns_done_error_witness :
    (⟨2, 3, none, true, some none⟩ : PWConfig Unit).ret = some (none : Option Unit) :=
  (pipewriter_close_returns_done_error (none : Option Unit) _
    (PWReaches.tail (PWReaches.tail (PWReaches.tail (PWReaches.tail (PWReaches.refl _)
      (PWStep.setErr 0 none false none))
      (PWStep.closeWriter 1 none none))
      (PWStep.sync none true none))
      (PWStep.pwReturn 2 none true))).2.2 rfl

/-- Log events leave the removal-call trace unchanged. -/
theorem SweepTrace.push_removed (t : SweepTrace) (lvl : LogLevel) (m : String) :
    (t.push lvl m).removed = t.removed := rfl

/-- A removal call appends its argument pair to the trace. -/
theorem SweepTrace.callRemove_removed (t : SweepTrace) (sid fp : String) :
    (t.callRemove sid fp).removed = t.removed ++ [(sid, fp)] := rfl

/-- The orphan-removal loop calls RemoveMetadata exactly for the metadata
keys missing from the live listing, once per key, in iteration order, at
the path ensureAbsPath(path.Join(folder, key)); the removal oracle's
verdicts do not influence the call list. -/
theorem removeOrphans_removed (h : MetadataPlugin) (sid folder : String)
    (F : List String) :
    ∀ (K : List (String × Int)) (t : SweepTrace),
    (removeOrphans h sid folder F K t).removed
      = t.removed ++ ((K.map Prod.fst).filter (fun k => ! F.contains k)).map
          (fun k => (sid, ensureAbsPath (goJoin2 folder k)))
  | [], t => by simp [removeOrphans]
  | (k, v) :: rest, t => by
    rw [removeOrphans]
    dsimp only
    by_cases hc : F.contains k
    · have hmem : k ∈ F := by simpa using hc
      rw [if_pos hc, removeOrphans_removed h sid folder F rest t]
      simp [List.filter_cons, hmem]
    · have hmem : k ∉ F := by simpa using hc
      rw [if_neg hc]
      cases hrm : h.removeMetadata sid (ensureAbsPath (goJoin2 folder k)) with
      | error e =>
        rw [removeOrphans_removed h sid folder F rest _]
        simp [SweepTrace.push_removed, SweepTrace.callRemove_removed,
          List.filter_cons, hmem]
      | ok u =>
        rw [removeOrphans_removed h sid folder F rest _]
        simp [SweepTrace.push_removed, SweepTrace.callRemove_removed,
          List.filter_cons, hmem]

/-- C3 (amended): in a single-page sweep over the one folder, with no
caller key prefix, metadata key list K and live listing F, RemoveMetadata
is called exactly once for each key of K missing from F, in iteration
order, with arguments (storage_id, ensure_abs_path(path.Join(folder,
key))) — path.Join cleans the joined path — and never for a key present
in F. -/
theorem metadata_sweep_removes_orphans (sid folder : String)
    (K : List (String × Int)) (F : List String)
    (rm : String → String → Except String Unit) :
    (fsMetadataCheck
      { hasMetadater := true
        getMetadataFolders := fun _ _ _ => .ok [folder]
        getModificationTimes := fun _ _ => .ok K
        removeMetadata := rm }
      { getFileNamesInPrefix := fun _ => .ok F } sid "" 1).1.removed
      = ((K.map Prod.fst).filter (fun k => ! F.contains k)).map
          (fun k => (sid, ensureAbsPath (goJoin2 folder k))) := by
  unfold fsMetadataCheck
  rw [if_neg (by simp)]
  unfold fsMetadataCheckLoop
  dsimp only
  unfold processFolders processFolder
  dsimp only
  rw [if_neg (by simp)]
  by_cases hK : K.length = 0
  · rw [if_pos hK]
    have hKnil : K = [] := List.length_eq_zero.mp hK
    subst hKnil
    simp only [processFolders]
    rw [if_pos (by norm_num)]
    simp [SweepTrace.push_removed]
  · rw [if_neg hK]
    dsimp only
    simp only [processFolders]
    rw [if_pos (by norm_num)]
    rw [removeOrphans_removed]
    simp [SweepTrace.push_removed]

/-- C3 counterexample: with folder "/p/a/" (a trailing slash), metadata
key "y" and an empty live listing, the sweep removes "/p/a/y" — the
cleaned path.Join — whereas the claim's formula
ensure_abs_path(folder + "/" + key) names "/p/a//y", for which no call is
ever made (count 0, not 1). -/
theorem metadata_sweep_counterexample :
    (fsMetadataCheck
      { hasMetadater := true
        getMetadataFolders := fun _ _ _ => .ok ["/p/a/"]
        getModificationTimes := fun _ _ => .ok [("y", 1)]
        removeMetadata := fun _ _ => .ok () }
      { getFileNamesInPrefix := fun _ => .ok [] } "sid" "" 1).1.removed
      = [("sid", "/p/a/y")] ∧
    ensureAbsPath ("/p/a/" ++ "/" ++ "y") = "/p/a//y" ∧
    ((fsMetadataCheck
      { hasMetadater := true
        getMetadataFolders := fun _ _ _ => .ok ["/p/a/"]
        getModificationTimes := fun _ _ => .ok [("y", 1)]
        removeMetadata := fun _ _ => .ok () }
      { getFileNamesInPrefix := fun _ => .ok [] } "sid" "" 1).1.removed.count
        ("sid", ensureAbsPath ("/p/a/" ++ "/" ++ "y"))) = 0 := by
  decide

/-- Auxiliary: the per-folder body's verdict and removal calls do not
depend on the removal oracle (only the logs can differ). -/
theorem processFolder_indep (h1 h2 : MetadataPlugin) (fs : MetadataChecker)
    (sid kp folder : String)
    (ht : h1.getModificationTimes = h2.getModificationTimes)
    (t1 t2 : SweepTrace) (hrem : t1.removed = t2.removed) :
    (processFolder h1 fs sid kp folder t1).2 = (processFolder h2 fs sid kp folder t2).2 ∧
    (processFolder h1 fs sid kp folder t1).1.removed
      = (processFolder h2 fs sid kp folder t2).1.removed := by
  unfold processFolder
  dsimp only
  set fsPfx := if ¬ goHasSuffix folder "/" = true then folder ++ "/" else folder with hpfx
  by_cases hskip : kp ≠ "" ∧ ¬ goHasPrefix fsPfx ("/" ++ kp) = true
  · simp only [if_pos hskip]
    exact ⟨by trivial, by simp [SweepTrace.push_removed, hrem]⟩
  · simp only [if_neg hskip]
    rw [ht]
    cases hmt : h2.getModificationTimes sid folder with
    | error e => exact ⟨by trivial, by simp [SweepTrace.push_removed, hrem]⟩
    | ok K =>
      by_cases hK : K.length = 0
      · simp only [if_pos hK]
        exact ⟨by trivial, by simp [SweepTrace.push_removed, hrem]⟩
      · simp only [if_neg hK]
        cases hfn : fs.getFileNamesInPrefix fsPfx with
        | error e => exact ⟨by trivial, by simp [SweepTrace.push_removed, hrem]⟩
        | ok F =>
          refine ⟨by trivial, ?_⟩
          rw [removeOrphans_removed, removeOrphans_removed]
          simp [SweepTrace.push_removed, hrem]

/-- Auxiliary: the page loop's verdict, cursor and removal calls do not
depend on the removal oracle. -/
theorem processFolders_indep (h1 h2 : MetadataPlugin) (fs : MetadataChecker)
    (sid kp : String) (ht : h1.getModificationTimes = h2.getModificationTimes) :
    ∀ (folders : List String) (frm : String) (t1 t2 : SweepTrace),
      t1.removed = t2.removed →
      (processFolders h1 fs sid kp folders frm t1).2.2
        = (processFolders h2 fs sid kp folders frm t2).2.2 ∧
      (processFolders h1 fs sid kp folders frm t1).2.1
        = (processFolders h2 fs sid kp folders frm t2).2.1 ∧
      (processFolders h1 fs sid kp folders frm t1).1.removed
        = (processFolders h2 fs sid kp folders frm t2).1.removed
  | [], frm, t1, t2, hrem => by
    simp only [processFolders]
    exact ⟨by trivial, by trivial, hrem⟩
  | folder :: rest, frm, t1, t2, hrem => by
    have hpf := processFolder_indep h1 h2 fs sid kp folder ht t1 t2 hrem
    rcases hp1 : processFolder h1 fs sid kp folder t1 with ⟨t1p, r1⟩
    rcases hp2 : processFolder h2 fs sid kp folder t2 with ⟨t2p, r2⟩
    rw [hp1, hp2] at hpf
    have hr : r1 = r2 := hpf.1
    subst hr
    have hrm2 : t1p.removed = t2p.removed := hpf.2
    rw [processFolders, processFolders, hp1, hp2]
    cases r1 with
    | some e => exact ⟨by trivial, by trivial, hrm2⟩
    | none => exact processFolders_indep h1 h2 fs sid kp ht rest folder t1p t2p hrm2

/-- Auxiliary: the whole fuelled pagination loop's verdict and removal
calls do not depend on the removal oracle. -/
theorem fsMetadataCheckLoop_indep (h1 h2 : MetadataPlugin) (fs : MetadataChecker)
    (sid kp : String) (hm : h1.getMetadataFolders = h2.getMetadataFolders)
    (ht : h1.getModificationTimes = h2.getModificationTimes) :
    ∀ (fuel : Nat) (frm : String) (t1 t2 : SweepTrace), t1.removed = t2.removed →
      (fsMetadataCheckLoop h1 fs sid kp fuel frm t1).2
        = (fsMetadataCheckLoop h2 fs sid kp fuel frm t2).2 ∧
      (fsMetadataCheckLoop h1 fs sid kp fuel frm t1).1.removed
        = (fsMetadataCheckLoop h2 fs sid kp fuel frm t2).1.removed
  | 0, frm, t1, t2, hrem => by
    simp only [fsMetadataCheckLoop]
    exact ⟨by trivial, hrem⟩
  | fuel + 1, frm, t1, t2, hrem => by
    rw [fsMetadataCheckLoop, fsMetadataCheckLoop, hm]
    cases hgf : h2.getMetadataFolders sid frm 100 with
    | error e => exact ⟨by trivial, by simp [SweepTrace.push_removed, hrem]⟩
    | ok folders =>
      have hps := processFolders_indep h1 h2 fs sid kp ht folders frm t1 t2 hrem
      rcases hq1 : processFolders h1 fs sid kp folders frm t1 with ⟨t1q, f1, r1⟩
      rcases hq2 : processFolders h2 fs sid kp folders frm t2 with ⟨t2q, f2, r2⟩
      rw [hq1, hq2] at hps
      have hr : r1 = r2 := hps.1
      have hf : f1 = f2 := hps.2.1
      subst hr
      subst hf
      have hrm2 : t1q.removed = t2q.removed := hps.2.2
      dsimp only
      rw [hq1, hq2]
      cases r1 with
      | some e => exact ⟨by trivial, hrm2⟩
      | none =>
        by_cases hlen : folders.length < 100
        · simp only [if_pos hlen]
          exact ⟨by trivial, hrm2⟩
        · simp only [if_neg hlen]
          exact fsMetadataCheckLoop_indep h1 h2 fs sid kp hm ht fuel f1 t1q t2q hrm2

/-- C4: the sweep's verdict and its removal-call trace never depend on the
removal oracle — a failed removal is only logged and the sweep continues —
whereas an error from the folder listing, from the modification-time
fetch, or from the backend's file listing aborts the sweep and is returned
to the caller. -/
theorem metadata_sweep_error_policy :
    (∀ (h1 h2 : MetadataPlugin) (fs : MetadataChecker) (sid kp : String) (fuel : Nat),
      h1.hasMetadater = h2.hasMetadater →
      h1.getMetadataFolders = h2.getMetadataFolders →
      h1.getModificationTimes = h2.getModificationTimes →
      (fsMetadataCheck h1 fs sid kp fuel).2 = (fsMetadataCheck h2 fs sid kp fuel).2 ∧
      (fsMetadataCheck h1 fs sid kp fuel).1.removed
        = (fsMetadataCheck h2 fs sid kp fuel).1.removed) ∧
    (∀ (h : MetadataPlugin) (fs : MetadataChecker) (sid kp e : String) (fuel : Nat),
      h.hasMetadater = true → h.getMetadataFolders sid "" 100 = .error e →
      (fsMetadataCheck h fs sid kp (fuel + 1)).2 = .err e) ∧
    (∀ (sid folder e : String) (rm : String → String → Except String Unit)
        (fnames : String → Except String (List String)),
      (fsMetadataCheck
        { hasMetadater := true
          getMetadataFolders := fun _ _ _ => .ok [folder]
          getModificationTimes := fun _ _ => .error e
          removeMetadata := rm }
        { getFileNamesInPrefix := fnames } sid "" 1).2 = .err e) ∧
    (∀ (sid folder e : String) (K : List (String × Int))
        (rm : String → String → Except String Unit),
      K ≠ [] →
      (fsMetadataCheck
        { hasMetadater := true
          getMetadataFolders := fun _ _ _ => .ok [folder]
          getModificationTimes := fun _ _ => .ok K
          removeMetadata := rm }
        { getFileNamesInPrefix := fun _ => .error e } sid "" 1).2 = .err e) := by
  refine ⟨?_, ?_, ?_, ?_⟩
  · intro h1 h2 fs sid kp fuel hhm hm ht
    unfold fsMetadataCheck
    rw [hhm]
    by_cases hh : h2.hasMetadater = true
    · rw [if_neg (by simp [hh]), if_neg (by simp [hh])]
      exact fsMetadataCheckLoop_indep h1 h2 fs sid kp hm ht fuel "" ⟨[], []⟩ ⟨[], []⟩ rfl
    · rw [if_pos (by simpa using hh), if_pos (by simpa using hh)]
      exact ⟨rfl, rfl⟩
  · intro h fs sid kp e fuel hh hgf
    unfold fsMetadataCheck
    rw [if_neg (by simp [hh])]
    rw [fsMetadataCheckLoop, hgf]
  · intro sid folder e rm fnames
    unfold fsMetadataCheck
    rw [if_neg (by simp)]
    unfold fsMetadataCheckLoop
    dsimp only
    unfold processFolders processFolder
    dsimp only
    rw [if_neg (by simp)]
  · intro sid folder e K rm hKne
    unfold fsMetadataCheck
    rw [if_neg (by simp)]
    unfold fsMetadataCheckLoop
    dsimp only
    unfold processFolders processFolder
    dsimp only
    rw [if_neg (by simp), if_neg (by simpa using fun h => hKne (List.length_eq_zero.mp h))]

/-- C4 witness: the four conjuncts applied at concrete inputs — two
sweeps differing only in the removal oracle's verdict, a failing folder
listing, a failing modification-time fetch, and a failing backend file
listing. -/
theorem metadata_sweep_error_policy_witness :
    ((fsMetadataCheck
      { hasMetadater := true
        getMetadataFolders := fun _ _ _ => .ok ["/p/a"]
        getModificationTimes := fun _ _ => .ok [("y", 1)]
        removeMetadata := fun _ _ => .error "boom" }
      { getFileNamesInPrefix := fun _ => .ok [] } "sid" "" 1).2
      = (fsMetadataCheck
      { hasMetadater := true
        getMetadataFolders := fun _ _ _ => .ok ["/p/a"]
        getModificationTimes := fun _ _ => .ok [("y", 1)]
        removeMetadata := fun _ _ => .ok () }
      { getFileNamesInPrefix := fun _ => .ok [] } "sid" "" 1).2) ∧
    (fsMetadataCheck
      { hasMetadater := true
        getMetadataFolders := fun _ _ _ => .error "lf"
        getModificationTimes := fun _ _ => .ok []
        removeMetadata := fun _ _ => .ok () }
      { getFileNamesInPrefix := fun _ => .ok [] } "sid" "" 1).2 = .err "lf" ∧
    (fsMetadataCheck
      { hasMetadater := true
        getMetadataFolders := fun _ _ _ => .ok ["/p/a"]
        getModificationTimes := fun _ _ => .error "mt"
        removeMetadata := fun _ _ => .ok () }
      { getFileNamesInPrefix := fun _ => .ok [] } "sid" "" 1).2 = .err "mt" ∧
    (fsMetadataCheck
      { hasMetadater := true
        getMetadataFolders := fun _ _ _ => .ok ["/p/a"]
        getModificationTimes := fun _ _ => .ok [("y", 1)]
        removeMetadata := fun _ _ => .ok () }
      { getFileNamesInPrefix := fun _ => .error "ls" } "sid" "" 1).2 = .err "ls" :=
  ⟨(metadata_sweep_error_policy.1
      { hasMetadater := true
        getMetadataFolders := fun _ _ _ => .ok ["/p/a"]
        getModificationTimes := fun _ _ => .ok [("y", 1)]
        removeMetadata := fun _ _ => .error "boom" }
      { hasMetadater := true
        getMetadataFolders := fun _ _ _ => .ok ["/p/a"]
        getModificationTimes := fun _ _ => .ok [("y", 1)]
        removeMetadata := fun _ _ => .ok () }
      { getFileNamesInPrefix := fun _ => .ok [] } "sid" "" 1 rfl rfl rfl).1,
   metadata_sweep_error_policy.2.1
      { hasMetadater := true
        getMetadataFolders := fun _ _ _ => .error "lf"
        getModificationTimes := fun _ _ => .ok []
        removeMetadata := fun _ _ => .ok () }
      { getFileNamesInPrefix := fun _ => .ok [] } "sid" "" "lf" 0 rfl rfl,
   metadata_sweep_error_policy.2.2.1 "sid" "/p/a" "mt" (fun _ _ => .ok ())
      (fun _ => .ok []),
   metadata_sweep_error_policy.2.2.2 "sid" "/p/a" "ls" [("y", 1)] (fun _ _ => .ok ())
      (by decide)⟩

end SftpgoVfs
